import Mathlib

/-!
# Verification of the hono-client-query proxy engine

A shallow embedding of `src/index.ts` of the `hono-client-query`
repository: the dynamic proxy that turns nested property accesses into
React-Query hooks, the cache-key construction, the error normalisation
and the path-shape-driven invalidation rule.

JavaScript values are modelled by `JsVal` (objects as ordered field
lists); the hono transport client by `ClientVal` (a tree of objects and
method callables); a dispatched call is modelled as the list of
observable events (`MEvent`) it produces, in order.
-/

mutual
/-- A JavaScript value, as far as this library manipulates them:
`undefined`, `null`, booleans, (integer) numbers, strings, plain objects
(ordered field lists, as JS objects are ordered) and arrays. -/
inductive JsVal where
  | undefV : JsVal
  | nullV : JsVal
  | bool : Bool → JsVal
  | num : Int → JsVal
  | str : String → JsVal
  | obj : JsFields → JsVal
  | arr : JsList → JsVal
  deriving DecidableEq

/-- The ordered field list of a JS object. -/
inductive JsFields where
  | nil : JsFields
  | cons : String → JsVal → JsFields → JsFields
  deriving DecidableEq

/-- The element list of a JS array. -/
inductive JsList where
  | nil : JsList
  | cons : JsVal → JsList → JsList
  deriving DecidableEq
end

/-- Convenience constructor: a JS object from a Lean list of fields. -/
def JsFields.ofList : List (String × JsVal) → JsFields
  | [] => .nil
  | (k, v) :: rest => .cons k v (JsFields.ofList rest)

/-- A JS object literal written as a Lean list. -/
def JsVal.objL (fields : List (String × JsVal)) : JsVal :=
  .obj (JsFields.ofList fields)

/-- First binding of key `k` in a field list. -/
def JsFields.lookup : JsFields → String → Option JsVal
  | .nil, _ => none
  | .cons l w rest, k => if l = k then some w else JsFields.lookup rest k

/-- Whether a field list binds key `k`. -/
def JsFields.hasKey : JsFields → String → Bool
  | .nil, _ => false
  | .cons l _ rest, k => l = k || JsFields.hasKey rest k

/-- JS object-literal update `{...fields, k: v}`: replace the binding of
`k` in place if present, otherwise append it at the end (JS key-order
semantics; source objects have unique keys). -/
def JsFields.setKey : JsFields → String → JsVal → JsFields
  | .nil, k, v => .cons k v .nil
  | .cons l w rest, k, v =>
      if l = k then .cons k v rest else .cons l w (JsFields.setKey rest k v)

/-- JS truthiness: `undefined`, `null`, `false`, `0` and `""` are falsy;
objects and arrays are always truthy. -/
def jsTruthy : JsVal → Bool
  | .undefV => false
  | .nullV => false
  | .bool b => b
  | .num n => n != 0
  | .str s => s ≠ ""
  | .obj _ => true
  | .arr _ => true

/-- Property read `v?.k` (optional chaining): `undefined`/`null` give
`undefined`; reading a missing field, or a field of a primitive, gives
`undefined`. -/
def jsGetField (v : JsVal) (k : String) : JsVal :=
  match v with
  | .obj fields => (fields.lookup k).getD .undefV
  | _ => .undefV

/-- The fields `{...v}` contributes when `v` is spread into an object
literal: an object's own fields; primitives, `null` and `undefined`
contribute nothing. -/
def jsSpreadFields : JsVal → JsFields
  | .obj fields => fields
  | _ => .nil

mutual
/-- JS `String(v)` coercion, as the `Error` constructor applies to its
message argument. -/
def jsValToString : JsVal → String
  | .undefV => "undefined"
  | .nullV => "null"
  | .bool b => if b then "true" else "false"
  | .num n => toString n
  | .str s => s
  | .obj _ => "[object Object]"
  | .arr es => String.intercalate "," (jsListStrings es)

/-- Elementwise coercion inside `Array.prototype.toString` (`undefined`
and `null` elements print as the empty string). -/
def jsListStrings : JsList → List String
  | .nil => []
  | .cons v rest =>
      (match v with
        | .undefV => ""
        | .nullV => ""
        | w => jsValToString w) :: jsListStrings rest
end

/-- JS `a || b`: `a` when truthy, else `b`. -/
def jsOr (a b : JsVal) : JsVal :=
  if jsTruthy a then a else b

/-- JS `s.startsWith(pre)`, character by character. -/
def jsStartsWith (s pre : String) : Bool :=
  pre.data.isPrefixOf s.data

--===============--
-- The transport --
--===============--

/-- The response-like object a transport callable resolves to: a success
flag, status metadata, and the (one-shot) result of `res.json()` —
`Except.error` models a body that fails to parse. -/
structure TransportResponse where
  ok : Bool
  status : Nat
  statusText : String
  body : Except Unit JsVal

/-- A node of the hono client object graph: a traversable object with
named children, a method callable (`$get`, `$post`, …), or `undefined`
(the result of reading a missing property). -/
inductive ClientVal where
  | undefV : ClientVal
  | obj : List (String × ClientVal) → ClientVal
  | fn : (JsVal → TransportResponse) → ClientVal

/-- Models the `TypeError` JavaScript throws when a property access or
call hits `undefined` during `path.reduce((acc, p) => acc[p], client)`;
`segment` is the property being read when the throw happens. -/
structure ResolutionError where
  segment : String
  deriving DecidableEq

/-- One step `acc[p]` of the reduce: indexing `undefined` throws, a
missing key yields `undefined`, properties of callables are absent. -/
def cvGet (v : ClientVal) (k : String) : Except ResolutionError ClientVal :=
  match v with
  | .undefV => .error (ResolutionError.mk k)
  | .obj children => .ok ((children.lookup k).getD .undefV)
  | .fn _ => .ok .undefV

/-- `path.reduce((acc, p) => acc[p], client)` (source lines 139, 193,
219, 244): stateless traversal of the client, re-run on every call. -/
def resolvePath (client : ClientVal) : List String → Except ResolutionError ClientVal
  | [] => .ok client
  | p :: ps =>
      match cvGet client p with
      | .error e => .error e
      | .ok next => resolvePath next ps

/-- `k in rpc` (source line 142): the `in` operator on `undefined`
throws a `TypeError`. -/
def cvHas (v : ClientVal) (k : String) : Except ResolutionError Bool :=
  match v with
  | .undefV => .error (ResolutionError.mk k)
  | .obj children => .ok (children.any (fun kv => kv.1 = k))
  | .fn _ => .ok false

/-- `rpc[k](input)`: calling a missing or non-callable property throws a
`TypeError`; otherwise the transport performs the request. -/
def cvCall (v : ClientVal) (k : String) (input : JsVal) :
    Except ResolutionError TransportResponse :=
  match v with
  | .obj children =>
      match children.lookup k with
      | some (.fn f) => .ok (f input)
      | _ => .error (ResolutionError.mk k)
  | _ => .error (ResolutionError.mk k)

--===============--
-- Error objects --
--===============--

/-- The `HonoQueryError` class (source lines 23–33): carries the raw
response's status metadata and the parsed (or fallback) payload. -/
structure HonoQueryError where
  status : Nat
  statusText : String
  data : JsVal
  deriving DecidableEq

/-- The inherited `Error.message`: `super(data?.message || res.statusText)`
(source line 28). -/
def HonoQueryError.message (e : HonoQueryError) : String :=
  jsValToString (jsOr (jsGetField e.data "message") (.str e.statusText))

/-- The errors a dispatched call can fail with: the `TypeError` from
path resolution, the plain `Error` thrown for an unsupported method
(source line 143), a `HonoQueryError` for a non-ok response, and the
rejection of `res.json()` on a success body. -/
inductive JsError where
  | resolution : ResolutionError → JsError
  | errorMsg : String → JsError
  | requestError : HonoQueryError → JsError
  | parseError : JsError
  deriving DecidableEq

/-- Response handling shared by every query and mutation fetch function
(source lines 150–156, 195–201, 228–234): a non-ok response becomes a
`HonoQueryError` whose payload is the parsed body, or
`{message: statusText}` when the body does not parse (the parse failure
is caught); an ok response returns its parsed body. -/
def handleResponse (res : TransportResponse) : Except JsError JsVal :=
  if res.ok = false then
    let errorData :=
      match res.body with
      | .ok v => v
      | .error _ => JsVal.obj (.cons "message" (.str res.statusText) .nil)
    .error (.requestError (HonoQueryError.mk res.status res.statusText errorData))
  else
    match res.body with
    | .ok v => .ok v
    | .error _ => .error .parseError

/-- The message of the `Error` thrown when a mutation's method is not on
the endpoint (source lines 143–145). -/
def unsupportedMethodMessage (method : String) (path : List String) : String :=
  "Method " ++ method ++ " not found for endpoint: " ++ String.intercalate "." path

/-- `method.toLowerCase()` (source line 140), character by character. -/
def jsToLowerCase (s : String) : String :=
  String.mk (s.data.map Char.toLower)

--===============--
--  Event traces --
--===============--

/-- The observable events of one dispatched call, in order: the single
transport invocation, dispatch success with the parsed data, a prefix
invalidation handed to the store (`queryClient.invalidateQueries`), the
caller-supplied `onSuccess` callback with its `(data, vars,
context)` triple, and failure with an error. -/
inductive MEvent where
  | transportCall : String → JsVal → MEvent
  | dispatchSuccess : JsVal → MEvent
  | invalidate : List String → MEvent
  | callerOnSuccess : JsVal → JsVal → JsVal → MEvent
  | failed : JsError → MEvent
  deriving DecidableEq

/-- `path.length > 0 ? path[path.length - 1] : ''` (source line 159). -/
def lastSegmentOf (path : List String) : String :=
  if path.length > 0 then path.getLastD "" else ""

/-- The wrapper `onSuccess` of `createMethodMutation` (source lines
158–174): invalidate the collection path, then — for a resource
mutation — the full path, then run the caller's `onSuccess` with the
same triple. -/
def mutationOnSuccessEvents (path : List String) (data vars context : JsVal) :
    List MEvent :=
  let lastSegment := lastSegmentOf path
  let isResourceMutation := jsStartsWith lastSegment ":"
  let collectionPath := if isResourceMutation then path.dropLast else path
  [MEvent.invalidate collectionPath] ++
    (if isResourceMutation then [MEvent.invalidate path] else []) ++
    [MEvent.callerOnSuccess data vars context]

/-- One full mutation dispatch (`createMethodMutation`, source lines
131–177): resolve the endpoint, check the method capability, perform
the transport call, normalise the response, and on success run the
invalidation-then-callback sequence. `context` is the store-provided
mutation context forwarded to the caller's `onSuccess`. -/
def runMutation (client : ClientVal) (path : List String) (method : String)
    (vars context : JsVal) : List MEvent :=
  match resolvePath client path with
  | .error e => [.failed (.resolution e)]
  | .ok rpc =>
    let honoMethod := "$" ++ jsToLowerCase method
    match cvHas rpc honoMethod with
    | .error e => [.failed (.resolution e)]
    | .ok false => [.failed (.errorMsg (unsupportedMethodMessage method path))]
    | .ok true =>
      match cvCall rpc honoMethod vars with
      | .error e => [.failed (.resolution e)]
      | .ok res =>
        MEvent.transportCall honoMethod vars ::
          match handleResponse res with
          | .error e => [.failed e]
          | .ok data =>
              MEvent.dispatchSuccess data ::
                mutationOnSuccessEvents path data vars context

/-- One single-query fetch (`queryFn` of `useQuery`, source lines
192–202): resolve the endpoint fresh, call `$get`, normalise. -/
def runQuery (client : ClientVal) (path : List String) (input : JsVal) :
    List MEvent :=
  match resolvePath client path with
  | .error e => [.failed (.resolution e)]
  | .ok rpc =>
    match cvCall rpc "$get" input with
    | .error e => [.failed (.resolution e)]
    | .ok res =>
      MEvent.transportCall "$get" input ::
        match handleResponse res with
        | .error e => [.failed e]
        | .ok data => [MEvent.dispatchSuccess data]

/-- Cursor injection of the paged fetch (source lines 220–226):
`{...input, query: {...(input?.query ?? {}), page: pageParam}}`. -/
def mergePage (input pageParam : JsVal) : JsVal :=
  let innerFields := jsSpreadFields (jsGetField input "query")
  let newQuery := JsVal.obj (innerFields.setKey "page" pageParam)
  JsVal.obj ((jsSpreadFields input).setKey "query" newQuery)

/-- One page fetch of `useInfiniteQuery` (source lines 218–235): merge
the store-supplied cursor into the query parameters, then dispatch as a
query. -/
def runInfiniteQuery (client : ClientVal) (path : List String)
    (input pageParam : JsVal) : List MEvent :=
  match resolvePath client path with
  | .error e => [.failed (.resolution e)]
  | .ok rpc =>
    let finalInput := mergePage input pageParam
    match cvCall rpc "$get" finalInput with
    | .error e => [.failed (.resolution e)]
    | .ok res =>
      MEvent.transportCall "$get" finalInput ::
        match handleResponse res with
        | .error e => [.failed e]
        | .ok data => [MEvent.dispatchSuccess data]

--===============--
--  Cache keys   --
--===============--

/-- `queryKey: [...path, input]` of `useQuery` (source line 191). -/
def queryCacheKey (path : List String) (input : JsVal) : List JsVal :=
  path.map JsVal.str ++ [input]

/-- `queryKey: [...path, input]` of `useInfiniteQuery` (source line
217); no page/cursor component. -/
def infiniteQueryCacheKey (path : List String) (input : JsVal) : List JsVal :=
  path.map JsVal.str ++ [input]

/-- The keys of the invalidation events in a trace, in order. -/
def invalidationsOf (trace : List MEvent) : List (List String) :=
  trace.filterMap fun e =>
    match e with
    | .invalidate k => some k
    | _ => none

/-- The invalidation set of a mutation at `path`, in issue order. -/
def invalidatedKeys (path : List String) : List (List String) :=
  invalidationsOf (mutationOnSuccessEvents path .undefV .undefV .undefV)

--===============--
--  Proxy layer  --
--===============--

/-- What one property access on the query proxy evaluates to: a bound
query/infinite-query hook, a bound method-mutation surface (the inner
proxy whose `useMutation` is `createMethodMutation client path method`),
`undefined`, or a sub-proxy at an extended path. -/
inductive ProxyResult where
  | queryHook : ProxyResult
  | infiniteQueryHook : ProxyResult
  | mutationHook : String → ProxyResult
  | undefV : ProxyResult
  | subproxy : List String → ProxyResult
  deriving DecidableEq

/-- `['post', 'put', 'patch', 'delete']` (source line 243). -/
def mutationMethods : List String := ["post", "put", "patch", "delete"]

/-- The proxy `get` trap (`proxyHandlers`, source lines 179–268), in
source order: `useQuery`, `useInfiniteQuery`, the four mutation method
names (which eagerly resolve the path and can throw the resolution
`TypeError`), the `$`-sigil guard, and finally path extension. -/
def proxyGet (client : ClientVal) (path : List String) (property : String) :
    Except ResolutionError ProxyResult :=
  if property = "useQuery" then .ok .queryHook
  else if property = "useInfiniteQuery" then .ok .infiniteQueryHook
  else if mutationMethods.contains property then
    match resolvePath client path with
    | .error e => .error e
    | .ok rpc =>
      match cvHas rpc ("$" ++ property) with
      | .error e => .error e
      | .ok true => .ok (.mutationHook property)
      | .ok false => .ok .undefV
  else if jsStartsWith property "$" then .ok .undefV
  else .ok (.subproxy (path ++ [property]))

/-- Chained traversal: follow a list of property accesses from `path`,
requiring each step to yield a sub-proxy. -/
def traverseSegs (client : ClientVal) (path : List String) :
    List String → Option (List String)
  | [] => some path
  | p :: ps =>
      match proxyGet client path p with
      | .ok (.subproxy q) => traverseSegs client q ps
      | _ => none

--===============--
--  Utils proxy  --
--===============--

/-- What one property access on the utils proxy evaluates to: the bound
`invalidate` action (carrying the store events its invocation issues),
or a utils sub-proxy at an extended path. -/
inductive UtilsResult where
  | invalidateAction : List MEvent → UtilsResult
  | subproxy : List String → UtilsResult
  deriving DecidableEq

/-- The utils proxy `get` trap (`createUtilsProxy`, source lines
294–309): `invalidate` returns `() => queryClient.invalidateQueries({queryKey: path})`;
any other property scopes a fresh utils proxy to the extended path. -/
def utilsGet (path : List String) (property : String) : UtilsResult :=
  if property = "invalidate" then .invalidateAction [MEvent.invalidate path]
  else .subproxy (path ++ [property])

/-- Chained traversal of the utils proxy. -/
def utilsTraverse (path : List String) : List String → Option (List String)
  | [] => some path
  | p :: ps =>
      match utilsGet path p with
      | .subproxy q => utilsTraverse q ps
      | _ => none

--===============--
--   Fixtures    --
--===============--

/-- The reserved hook-trigger property names of the proxy surface. -/
def reservedNames : List String := ["useQuery", "useInfiniteQuery"] ++ mutationMethods

/-- Whether a proxy access appended a segment to the Path (yielded a
sub-proxy). -/
def extendsPath : Except ResolutionError ProxyResult → Bool
  | .ok (.subproxy _) => true
  | _ => false

/-- Whether a trace contains a transport invocation. -/
def hasTransportCall (trace : List MEvent) : Bool :=
  trace.any fun e =>
    match e with
    | .transportCall _ _ => true
    | _ => false

/-- A transport endpoint that always answers 200 OK with body
`{id: "1"}`. -/
def okResponder : JsVal → TransportResponse := fun _ =>
  TransportResponse.mk true 200 "OK" (Except.ok (JsVal.objL [("id", JsVal.str "1")]))

/-- A transport endpoint that always answers 500 with a body that fails
to parse as JSON. -/
def badJsonResponder : JsVal → TransportResponse := fun _ =>
  TransportResponse.mk false 500 "Internal Server Error" (Except.error ())

/-- A client exposing `PATCH /posts/:id`. -/
def postsClient : ClientVal :=
  ClientVal.obj [("posts", ClientVal.obj
    [(":id", ClientVal.obj [("$patch", ClientVal.fn okResponder)])])]

/-- A client exposing only `GET /users`. -/
def usersGetOnly : ClientVal :=
  ClientVal.obj [("users", ClientVal.obj [("$get", ClientVal.fn okResponder)])]

/-- A client exposing only `POST /users`. -/
def usersPostOnly : ClientVal :=
  ClientVal.obj [("users", ClientVal.obj [("$post", ClientVal.fn okResponder)])]

/-- A client exposing `POST /posts` whose responses are non-ok with an
unparseable body. -/
def errClient : ClientVal :=
  ClientVal.obj [("posts", ClientVal.obj [("$post", ClientVal.fn badJsonResponder)])]

/-- The mutation input `{param: {id: "1"}, json: {title: "x"}}`. -/
def patchInput : JsVal :=
  JsVal.objL [("param", JsVal.objL [("id", JsVal.str "1")]),
              ("json", JsVal.objL [("title", JsVal.str "x")])]

/-- The paged-query input `{query: {limit: 10}}`. -/
def pageInput10 : JsVal :=
  JsVal.objL [("query", JsVal.objL [("limit", JsVal.num 10)])]

--===============--
-- Helper lemmas --
--===============--

theorem lastSegmentOf_eq (path : List String) :
    lastSegmentOf path = path.getLastD "" := by
  cases path <;> simp [lastSegmentOf]

theorem JsFields.lookup_setKey_self :
    (fs : JsFields) → (k : String) → (v : JsVal) →
      (fs.setKey k v).lookup k = some v
  | .nil, k, v => by simp [JsFields.setKey, JsFields.lookup]
  | .cons l w rest, k, v => by
      by_cases h : l = k <;>
        simp [JsFields.setKey, JsFields.lookup, h,
          JsFields.lookup_setKey_self rest k v]

theorem JsFields.lookup_setKey_ne :
    (fs : JsFields) → (k k' : String) → (v : JsVal) → k' ≠ k →
      (fs.setKey k v).lookup k' = fs.lookup k'
  | .nil, k, k', v, h => by simp [JsFields.setKey, JsFields.lookup, Ne.symm h]
  | .cons l w rest, k, k', v, h => by
      by_cases hl : l = k
      · subst hl
        simp [JsFields.setKey, JsFields.lookup, Ne.symm h]
      · by_cases hl' : l = k' <;>
          simp [JsFields.setKey, JsFields.lookup, hl, hl', h,
            JsFields.lookup_setKey_ne rest k k' v h]

theorem mutationOnSuccessEvents_eq (path : List String) (d v c : JsVal) :
    mutationOnSuccessEvents path d v c =
      (invalidatedKeys path).map MEvent.invalidate ++ [MEvent.callerOnSuccess d v c] := by
  unfold invalidatedKeys invalidationsOf mutationOnSuccessEvents
  by_cases h : jsStartsWith (lastSegmentOf path) ":" <;> simp [h]

theorem resolvePath_append (client : ClientVal) (xs ys : List String) :
    resolvePath client (xs ++ ys) =
      match resolvePath client xs with
      | .error e => .error e
      | .ok v => resolvePath v ys := by
  induction xs generalizing client with
  | nil => simp [resolvePath]
  | cons x xs ih =>
      simp only [List.cons_append, resolvePath]
      cases cvGet client x with
      | error e => rfl
      | ok next => exact ih next

theorem proxyGet_method_eq (client : ClientVal) (path : List String) (m : String)
    (hm : m ∈ mutationMethods) :
    proxyGet client path m =
      match resolvePath client path with
      | .error e => .error e
      | .ok rpc =>
          match cvHas rpc ("$" ++ m) with
          | .error e => .error e
          | .ok true => .ok (.mutationHook m)
          | .ok false => .ok .undefV := by
  have h1 : ¬ m = "useQuery" := by rintro rfl; revert hm; decide
  have h2 : ¬ m = "useInfiniteQuery" := by rintro rfl; revert hm; decide
  have h3 : mutationMethods.contains m = true := by
    simp only [mutationMethods, List.mem_cons, List.not_mem_nil, or_false] at hm
    rcases hm with rfl | rfl | rfl | rfl <;> decide
  unfold proxyGet
  rw [if_neg h1, if_neg h2, if_pos h3]

theorem proxyGet_plain (client : ClientVal) (path : List String) (property : String)
    (h1 : property ∉ reservedNames) (h2 : jsStartsWith property "$" = false) :
    proxyGet client path property = .ok (.subproxy (path ++ [property])) := by
  have hq : ¬ property = "useQuery" := by
    rintro rfl; exact h1 (by decide)
  have hiq : ¬ property = "useInfiniteQuery" := by
    rintro rfl; exact h1 (by decide)
  have hc : ¬ mutationMethods.contains property = true := by
    intro hc
    refine h1 ?_
    have : property ∈ mutationMethods := by
      simpa using hc
    simp [reservedNames, this]
  unfold proxyGet
  rw [if_neg hq, if_neg hiq, if_neg hc, if_neg (by simp [h2])]

theorem traverseSegs_plain (client : ClientVal) (path : List String) (segs : List String)
    (h : ∀ s ∈ segs, s ∉ reservedNames ∧ jsStartsWith s "$" = false) :
    traverseSegs client path segs = some (path ++ segs) := by
  induction segs generalizing path with
  | nil => simp [traverseSegs]
  | cons s ss ih =>
      have hs := h s (by simp)
      have hp := proxyGet_plain client path s hs.1 hs.2
      simp only [traverseSegs, hp]
      rw [ih (path ++ [s]) (fun t ht => h t (by simp [ht]))]
      simp

theorem utilsTraverse_plain (path : List String) (segs : List String)
    (h : ∀ s ∈ segs, s ≠ "invalidate") :
    utilsTraverse path segs = some (path ++ segs) := by
  induction segs generalizing path with
  | nil => simp [utilsTraverse]
  | cons s ss ih =>
      have hs := h s (by simp)
      have hu : utilsGet path s = .subproxy (path ++ [s]) := by
        rw [utilsGet, if_neg hs]
      simp only [utilsTraverse, hu]
      rw [ih (path ++ [s]) (fun t ht => h t (by simp [ht]))]
      simp

theorem toLowerCase_of_mem_mutationMethods :
    ∀ m ∈ mutationMethods, jsToLowerCase m = m := by
  decide

--===============--
--    Claims     --
--===============--

/-- Claim C1: on dispatch success, a mutation whose Path ends in a
resource marker (a `:`-prefixed segment) has an invalidation set of
exactly two Cache Keys — the full Path and the Path with the last
segment removed — while a mutation whose final segment is not a resource
marker invalidates exactly the full Path; in particular
`["users", ":id", "posts", ":postId"]` invalidates exactly itself and
`["users", ":id", "posts"]`, and no grandparent key such as
`["users", ":id"]`. -/
theorem C1_invalidation_set (path : List String) :
    (invalidatedKeys path =
      if jsStartsWith (lastSegmentOf path) ":" then [path.dropLast, path] else [path])
    ∧ (jsStartsWith (lastSegmentOf path) ":" = true → path.dropLast ≠ path)
    ∧ invalidatedKeys ["users", ":id", "posts", ":postId"] =
        [["users", ":id", "posts"], ["users", ":id", "posts", ":postId"]]
    ∧ ["users", ":id"] ∉ invalidatedKeys ["users", ":id", "posts", ":postId"] := by
  refine ⟨?_, ?_, by decide, by decide⟩
  · unfold invalidatedKeys invalidationsOf mutationOnSuccessEvents
    by_cases h : jsStartsWith (lastSegmentOf path) ":" <;> simp [h]
  · intro h hd
    have hne : path ≠ [] := by
      rintro rfl
      exact absurd h (by decide)
    have hlen := congrArg List.length hd
    rw [List.length_dropLast] at hlen
    have h0 : path.length ≠ 0 := fun h0 => hne (List.length_eq_zero.mp h0)
    omega

/-- Witness for C1 at the concrete resource path `["users", ":id"]`. -/
theorem C1_invalidation_set_witness :
    invalidatedKeys ["users", ":id"] = [["users"], ["users", ":id"]]
      ∧ (["users", ":id"] : List String).dropLast ≠ ["users", ":id"] := by
  constructor
  · rw [(C1_invalidation_set ["users", ":id"]).1, if_pos (by decide)]
    decide
  · exact (C1_invalidation_set ["users", ":id"]).2.1 (by decide)

/-- Claim C2 (amended): on a successful mutation dispatch, the trace is
the single transport call, then dispatch success, then the invalidations,
then the caller's `onSuccess` with the same `(data, variables, context)`
triple — so invalidation is issued strictly after dispatch success and
strictly before `onSuccess`; for path `["posts", ":id"]` the store
receives the invalidation for `["posts"]` first and the one for
`["posts", ":id"]` second (the code invalidates the collection before
the resource, the reverse of the order the claim states). -/
theorem C2_invalidation_order (client : ClientVal) (path : List String)
    (method : String) (vars ctx d : JsVal) (rpc : ClientVal) (res : TransportResponse)
    (hres : resolvePath client path = .ok rpc)
    (hhas : cvHas rpc ("$" ++ jsToLowerCase method) = .ok true)
    (hcall : cvCall rpc ("$" ++ jsToLowerCase method) vars = .ok res)
    (hok : res.ok = true) (hbody : res.body = .ok d) :
    runMutation client path method vars ctx =
      [MEvent.transportCall ("$" ++ jsToLowerCase method) vars, MEvent.dispatchSuccess d]
        ++ (invalidatedKeys path).map MEvent.invalidate
        ++ [MEvent.callerOnSuccess d vars ctx]
    ∧ invalidatedKeys ["posts", ":id"] = [["posts"], ["posts", ":id"]] := by
  refine ⟨?_, by decide⟩
  simp [runMutation, hres, hhas, hcall, handleResponse, hok, hbody,
    mutationOnSuccessEvents_eq]

/-- Witness for C2: the concrete `PATCH /posts/:id` mutation trace. -/
theorem C2_invalidation_order_witness :
    runMutation postsClient ["posts", ":id"] "patch" patchInput JsVal.undefV =
      [MEvent.transportCall "$patch" patchInput,
       MEvent.dispatchSuccess (JsVal.objL [("id", JsVal.str "1")]),
       MEvent.invalidate ["posts"],
       MEvent.invalidate ["posts", ":id"],
       MEvent.callerOnSuccess (JsVal.objL [("id", JsVal.str "1")]) patchInput
         JsVal.undefV] := by
  have h := (C2_invalidation_order postsClient ["posts", ":id"] "patch" patchInput
      JsVal.undefV (JsVal.objL [("id", JsVal.str "1")])
      (ClientVal.obj [("$patch", ClientVal.fn okResponder)])
      (TransportResponse.mk true 200 "OK" (Except.ok (JsVal.objL [("id", JsVal.str "1")])))
      rfl rfl rfl rfl rfl).1
  rw [h]
  rfl

/-- Counterexample to C2 as stated: for the `PATCH /posts/:id` mutation
the store receives `["posts"]` first and `["posts", ":id"]` second, not
the claimed resource-key-first order. -/
theorem C2_claimed_order_counterexample :
    invalidationsOf (runMutation postsClient ["posts", ":id"] "patch" patchInput
        JsVal.undefV) = [["posts"], ["posts", ":id"]]
    ∧ ([["posts"], ["posts", ":id"]] : List (List String)) ≠
        [["posts", ":id"], ["posts"]] := by
  exact ⟨rfl, by decide⟩

/-- Claim C3: a dispatched mutation whose transport response has a false
success flag fails with a `HonoQueryError` carrying the raw response
metadata and a payload equal to the parsed body when parsing succeeds,
and equal to `{message: statusText}` when parsing fails; the body-parse
failure itself is never propagated to the caller. -/
theorem C3_error_normalization (client : ClientVal) (path : List String)
    (method : String) (vars ctx d : JsVal) (rpc : ClientVal) (res : TransportResponse)
    (hres : resolvePath client path = .ok rpc)
    (hhas : cvHas rpc ("$" ++ jsToLowerCase method) = .ok true)
    (hcall : cvCall rpc ("$" ++ jsToLowerCase method) vars = .ok res)
    (hok : res.ok = false) :
    (res.body = .ok d →
      runMutation client path method vars ctx =
        [MEvent.transportCall ("$" ++ jsToLowerCase method) vars,
         MEvent.failed (.requestError (HonoQueryError.mk res.status res.statusText d))])
    ∧ (res.body = .error () →
      runMutation client path method vars ctx =
        [MEvent.transportCall ("$" ++ jsToLowerCase method) vars,
         MEvent.failed (.requestError (HonoQueryError.mk res.status res.statusText
           (JsVal.obj (.cons "message" (.str res.statusText) .nil))))])
    ∧ MEvent.failed JsError.parseError ∉ runMutation client path method vars ctx := by
  refine ⟨?_, ?_, ?_⟩
  · intro hbody
    simp [runMutation, hres, hhas, hcall, handleResponse, hok, hbody]
  · intro hbody
    simp [runMutation, hres, hhas, hcall, handleResponse, hok, hbody]
  · rcases hb : res.body with u | v
    · cases u
      simp [runMutation, hres, hhas, hcall, handleResponse, hok, hb]
    · simp [runMutation, hres, hhas, hcall, handleResponse, hok, hb]

/-- Witness for C3: a 500 response with an unparseable body yields the
`{message: statusText}` fallback payload. -/
theorem C3_error_normalization_witness :
    runMutation errClient ["posts"] "post" patchInput JsVal.undefV =
      [MEvent.transportCall "$post" patchInput,
       MEvent.failed (JsError.requestError (HonoQueryError.mk 500 "Internal Server Error"
         (JsVal.obj (.cons "message" (.str "Internal Server Error") .nil))))] := by
  have h := (C3_error_normalization errClient ["posts"] "post" patchInput JsVal.undefV
      JsVal.undefV (ClientVal.obj [("$post", ClientVal.fn badJsonResponder)])
      (TransportResponse.mk false 500 "Internal Server Error" (Except.error ()))
      rfl rfl rfl rfl).2.1 rfl
  rw [h]
  rfl

/-- Claim C4 (amended): for every mutating HTTP method (post, put,
patch, delete), on a path whose endpoint handle lacks that method's
callable, the hook surface is not invocable — the proxy access yields
undefined — and the call-time mutation function fails with an `Error`
whose message names the missing method and the path, attempting no
transport call. (For `get`, the query hooks remain invocable and a
missing `$get` fails at dispatch with a `TypeError`; see the
counterexample.) -/
theorem C4_capability_gating (client : ClientVal) (path : List String)
    (method : String) (rpc : ClientVal) (vars ctx : JsVal)
    (hm : method ∈ mutationMethods)
    (hres : resolvePath client path = .ok rpc)
    (hhas : cvHas rpc ("$" ++ method) = .ok false) :
    proxyGet client path method = .ok .undefV
    ∧ runMutation client path method vars ctx =
        [MEvent.failed (.errorMsg (unsupportedMethodMessage method path))]
    ∧ hasTransportCall (runMutation client path method vars ctx) = false := by
  have hlow : jsToLowerCase method = method :=
    toLowerCase_of_mem_mutationMethods method hm
  have h2 : runMutation client path method vars ctx =
      [MEvent.failed (.errorMsg (unsupportedMethodMessage method path))] := by
    simp [runMutation, hres, hlow, hhas]
  refine ⟨?_, h2, by rw [h2]; rfl⟩
  rw [proxyGet_method_eq client path method hm]
  simp [hres, hhas]

/-- Witness for C4: `post` on the `GET`-only `/users` endpoint. -/
theorem C4_capability_gating_witness :
    proxyGet usersGetOnly ["users"] "post" = .ok ProxyResult.undefV
    ∧ runMutation usersGetOnly ["users"] "post" JsVal.undefV JsVal.undefV =
        [MEvent.failed (.errorMsg (unsupportedMethodMessage "post" ["users"]))]
    ∧ hasTransportCall
        (runMutation usersGetOnly ["users"] "post" JsVal.undefV JsVal.undefV) = false :=
  C4_capability_gating usersGetOnly ["users"] "post"
    (ClientVal.obj [("$get", ClientVal.fn okResponder)]) JsVal.undefV JsVal.undefV
    (by decide) rfl rfl

/-- Counterexample to C4 as stated over every HTTP method: on a path
exposing only `$post`, the hook for `get` (`useQuery`) is still
invocable — the access returns the bound hook — and invoking it fails
with the resolution `TypeError` from calling the missing `$get`, not
with an `UnsupportedMethodError`-style message naming the method and
the path. -/
theorem C4_get_counterexample :
    proxyGet usersPostOnly ["users"] "useQuery" = .ok ProxyResult.queryHook
    ∧ runQuery usersPostOnly ["users"] JsVal.undefV =
        [MEvent.failed (JsError.resolution (ResolutionError.mk "$get"))]
    ∧ JsError.resolution (ResolutionError.mk "$get") ≠
        JsError.errorMsg (unsupportedMethodMessage "get" ["users"]) :=
  ⟨rfl, rfl, by decide⟩

/-- Claim C5: the Cache Key of a single query is the Path's segments
followed by the input as final element (`[...path, input]`), also when
the input is `undefined`; a paged query uses the same key shape — its
key is a function of path and input only, with no page/cursor component,
and agrees with the single-query key; and structurally equal inputs give
equal Cache Keys for the same Path. -/
theorem C5_cache_key (path : List String) (input i1 i2 : JsVal) :
    queryCacheKey path input = path.map JsVal.str ++ [input]
    ∧ queryCacheKey path JsVal.undefV = path.map JsVal.str ++ [JsVal.undefV]
    ∧ infiniteQueryCacheKey path input = queryCacheKey path input
    ∧ (i1 = i2 → queryCacheKey path i1 = queryCacheKey path i2) :=
  ⟨rfl, rfl, rfl, fun h => by rw [h]⟩

/-- Witness for C5 at path `["users"]` with input `2`. -/
theorem C5_cache_key_witness :
    queryCacheKey ["users"] (JsVal.num 2) = [JsVal.str "users", JsVal.num 2]
    ∧ queryCacheKey ["users"] (JsVal.num 2) = queryCacheKey ["users"] (JsVal.num 2) :=
  ⟨(C5_cache_key ["users"] (JsVal.num 2) (JsVal.num 2) (JsVal.num 2)).1,
   (C5_cache_key ["users"] (JsVal.num 2) (JsVal.num 2) (JsVal.num 2)).2.2.2 rfl⟩

/-- Claim C6: each page fetch merges the store-supplied cursor into the
input's query-parameter object under the key `page`, preserving every
other input field and every existing query parameter; with
`input.query = {limit: 10}` the second page's query parameters equal
`{limit: 10, page: cursor}`; the first page (store supplies no cursor:
`pageParam` undefined) is dispatched with an undefined `page` value; and
the transport receives exactly the merged input. -/
theorem C6_pagination (client : ClientVal) (path : List String)
    (input pageParam : JsVal) (k1 k2 : String) (rpc : ClientVal)
    (res : TransportResponse)
    (hres : resolvePath client path = .ok rpc)
    (hcall : cvCall rpc "$get" (mergePage input pageParam) = .ok res)
    (hk1 : k1 ≠ "query") (hk2 : k2 ≠ "page") :
    mergePage pageInput10 (JsVal.str "cursor2") =
        JsVal.objL [("query",
          JsVal.objL [("limit", JsVal.num 10), ("page", JsVal.str "cursor2")])]
    ∧ jsGetField (mergePage input pageParam) k1 = jsGetField input k1
    ∧ jsGetField (jsGetField (mergePage input pageParam) "query") k2 =
        jsGetField (jsGetField input "query") k2
    ∧ jsGetField (jsGetField (mergePage input pageParam) "query") "page" = pageParam
    ∧ jsGetField (jsGetField (mergePage pageInput10 JsVal.undefV) "query") "page" =
        JsVal.undefV
    ∧ (runInfiniteQuery client path input pageParam).head? =
        some (MEvent.transportCall "$get" (mergePage input pageParam)) := by
  have houter : jsGetField (mergePage input pageParam) "query" =
      JsVal.obj ((jsSpreadFields (jsGetField input "query")).setKey "page" pageParam) := by
    simp [mergePage, jsGetField, JsFields.lookup_setKey_self]
  refine ⟨by decide, ?_, ?_, ?_, by decide, ?_⟩
  · cases input <;>
      simp [mergePage, jsGetField, jsSpreadFields, JsFields.setKey, JsFields.lookup,
        JsFields.lookup_setKey_ne, hk1, Ne.symm hk1]
  · rw [houter]
    cases hq : jsGetField input "query" <;>
      simp [jsGetField, jsSpreadFields, JsFields.setKey, JsFields.lookup,
        JsFields.lookup_setKey_ne, hk2, Ne.symm hk2]
  · rw [houter]
    simp [jsGetField, JsFields.lookup_setKey_self]
  · simp only [runInfiniteQuery, hres, hcall]
    cases handleResponse res <;> simp

/-- Witness for C6: the second page of a paged `GET /users` query with
`{query: {limit: 10}}` and cursor `"cursor2"`. -/
theorem C6_pagination_witness :
    mergePage pageInput10 (JsVal.str "cursor2") =
      JsVal.objL [("query",
        JsVal.objL [("limit", JsVal.num 10), ("page", JsVal.str "cursor2")])]
    ∧ jsGetField (jsGetField (mergePage pageInput10 (JsVal.str "cursor2")) "query")
        "page" = JsVal.str "cursor2"
    ∧ (runInfiniteQuery usersGetOnly ["users"] pageInput10 (JsVal.str "cursor2")).head? =
        some (MEvent.transportCall "$get" (mergePage pageInput10 (JsVal.str "cursor2"))) := by
  have h := C6_pagination usersGetOnly ["users"] pageInput10 (JsVal.str "cursor2")
    "param" "limit" (ClientVal.obj [("$get", ClientVal.fn okResponder)])
    (TransportResponse.mk true 200 "OK" (Except.ok (JsVal.objL [("id", JsVal.str "1")])))
    rfl rfl (by decide) (by decide)
  exact ⟨h.1, h.2.2.2.1, h.2.2.2.2.2⟩

/-- A proxy access on a mutation method name never yields a sub-proxy,
whatever the client and resolution outcome. -/
theorem extendsPath_proxyGet_method (client : ClientVal) (path : List String)
    (m : String) (hm : m ∈ mutationMethods) :
    extendsPath (proxyGet client path m) = false := by
  rw [proxyGet_method_eq client path m hm]
  cases resolvePath client path with
  | error e => rfl
  | ok rpc =>
      dsimp only
      cases cvHas rpc ("$" ++ m) with
      | error e => rfl
      | ok b => cases b <;> rfl

/-- Claim C7 (amended): accessing a `$`-sigil property returns
undefined; accessing a reserved hook-trigger name never appends that
name to the Path — `useQuery` and `useInfiniteQuery` return the bound
hooks, a mutation method name returns the bound hook when the endpoint
supports the method and undefined when it does not (this last case is
where the claim as stated fails); accessing any other name returns a
sub-proxy whose Path is extended by exactly that segment; and traversal
is pure, so a chain of plain accesses always re-derives the same Path,
`path ++ segs`. -/
theorem C7_proxy_traversal (client : ClientVal) (path : List String)
    (property m r : String) (rpc : ClientVal) (segs : List String) :
    (jsStartsWith property "$" = true → proxyGet client path property = .ok .undefV)
    ∧ proxyGet client path "useQuery" = .ok .queryHook
    ∧ proxyGet client path "useInfiniteQuery" = .ok .infiniteQueryHook
    ∧ (m ∈ mutationMethods → resolvePath client path = .ok rpc →
        (cvHas rpc ("$" ++ m) = .ok true →
          proxyGet client path m = .ok (.mutationHook m))
        ∧ (cvHas rpc ("$" ++ m) = .ok false →
          proxyGet client path m = .ok .undefV))
    ∧ (r ∈ reservedNames → extendsPath (proxyGet client path r) = false)
    ∧ (property ∉ reservedNames → jsStartsWith property "$" = false →
        proxyGet client path property = .ok (.subproxy (path ++ [property])))
    ∧ ((∀ s ∈ segs, s ∉ reservedNames ∧ jsStartsWith s "$" = false) →
        traverseSegs client path segs = some (path ++ segs)) := by
  refine ⟨?_, rfl, rfl, ?_, ?_, ?_, ?_⟩
  · intro hd
    have hq : ¬ property = "useQuery" := by rintro rfl; revert hd; decide
    have hiq : ¬ property = "useInfiniteQuery" := by rintro rfl; revert hd; decide
    have hc : ¬ mutationMethods.contains property = true := by
      intro hc
      have hmem : property ∈ mutationMethods := by simpa using hc
      simp only [mutationMethods, List.mem_cons, List.not_mem_nil, or_false] at hmem
      rcases hmem with rfl | rfl | rfl | rfl <;> revert hd <;> decide
    unfold proxyGet
    rw [if_neg hq, if_neg hiq, if_neg hc, if_pos hd]
  · intro hm hres
    rw [proxyGet_method_eq client path m hm, hres]
    dsimp only
    constructor <;> intro hh <;> rw [hh]
  · intro hr
    simp only [reservedNames, mutationMethods, List.mem_cons, List.mem_append,
      List.not_mem_nil, or_false] at hr
    rcases hr with (rfl | rfl) | hr
    · rfl
    · rfl
    · exact extendsPath_proxyGet_method client path r (by
        simp only [mutationMethods, List.mem_cons, List.not_mem_nil, or_false]
        exact hr)
  · exact proxyGet_plain client path property
  · exact traverseSegs_plain client path segs

/-- Witness for C7 on the `GET`-only `/users` client. -/
theorem C7_proxy_traversal_witness :
    proxyGet usersGetOnly ["users"] "$url" = .ok ProxyResult.undefV
    ∧ proxyGet usersGetOnly ["users"] "useQuery" = .ok ProxyResult.queryHook
    ∧ proxyGet usersGetOnly ["users"] "items" =
        .ok (ProxyResult.subproxy ["users", "items"])
    ∧ traverseSegs usersGetOnly [] ["users", "items"] = some ["users", "items"] := by
  have h := C7_proxy_traversal usersGetOnly ["users"] "$url" "post" "put"
    (ClientVal.obj [("$get", ClientVal.fn okResponder)]) ["users", "items"]
  have h2 := C7_proxy_traversal usersGetOnly [] "items" "post" "put"
    (ClientVal.obj [("$get", ClientVal.fn okResponder)]) ["users", "items"]
  exact ⟨h.1 (by decide), h.2.1,
    (C7_proxy_traversal usersGetOnly ["users"] "items" "post" "put"
      (ClientVal.obj [("$get", ClientVal.fn okResponder)])
      ["users", "items"]).2.2.2.2.2.1 (by decide) (by decide),
    h2.2.2.2.2.2.2 (by decide)⟩

/-- Counterexample to C7 as stated: on a path exposing only `$get`,
accessing the reserved hook-trigger name `post` returns undefined, not a
bound hook. -/
theorem C7_reserved_name_counterexample :
    proxyGet usersGetOnly ["users"] "post" = .ok ProxyResult.undefV
    ∧ ProxyResult.undefV ≠ ProxyResult.mutationHook "post"
    ∧ ProxyResult.undefV ≠ ProxyResult.queryHook
    ∧ ProxyResult.undefV ≠ ProxyResult.infiniteQueryHook :=
  ⟨rfl, by decide, by decide, by decide⟩

/-- Claim C8: resolving a Path with a missing intermediate segment fails
with the resolution error (the typed `TypeError` of the reduce, distinct
from the transport-failure `HonoQueryError`), and it is raised at call
time — inside the query's fetch function — while plain proxy traversal
of the very same Path never fails, whatever the client. -/
theorem C8_resolution_error (client : ClientVal) (path pre post : List String)
    (missingSeg nextSeg : String) (children : List (String × ClientVal))
    (input : JsVal) (e : ResolutionError) (hq : HonoQueryError) :
    (resolvePath client pre = .ok (.obj children) →
      children.lookup missingSeg = none →
      resolvePath client (pre ++ missingSeg :: nextSeg :: post) =
        .error (ResolutionError.mk nextSeg))
    ∧ (resolvePath client path = .error e →
        runQuery client path input = [MEvent.failed (JsError.resolution e)])
    ∧ JsError.resolution e ≠ JsError.requestError hq
    ∧ ((∀ s ∈ path, s ∉ reservedNames ∧ jsStartsWith s "$" = false) →
        traverseSegs client [] path = some path) := by
  refine ⟨?_, ?_, by simp, ?_⟩
  · intro hres hmiss
    rw [resolvePath_append, hres]
    show resolvePath (ClientVal.obj children) (missingSeg :: nextSeg :: post) = _
    simp only [resolvePath, cvGet, hmiss, Option.getD_none]
  · intro herr
    simp [runQuery, herr]
  · intro h
    simpa using traverseSegs_plain client [] path h

/-- Witness for C8: `["users", "missing", "deep"]` against the client
exposing only `GET /users`. -/
theorem C8_resolution_error_witness :
    resolvePath usersGetOnly (["users"] ++ "missing" :: "deep" :: []) =
      .error (ResolutionError.mk "deep")
    ∧ runQuery usersGetOnly ["users", "missing", "deep"] JsVal.undefV =
        [MEvent.failed (JsError.resolution (ResolutionError.mk "deep"))]
    ∧ traverseSegs usersGetOnly [] ["users", "missing", "deep"] =
        some ["users", "missing", "deep"] := by
  have h := C8_resolution_error usersGetOnly ["users", "missing", "deep"] ["users"] []
    "missing" "deep" [("$get", ClientVal.fn okResponder)] JsVal.undefV
    (ResolutionError.mk "deep") (HonoQueryError.mk 500 "" JsVal.undefV)
  exact ⟨h.1 rfl rfl, h.2.1 rfl, h.2.2.2 (by decide)⟩

/-- Claim C9: on the utils proxy, `invalidate` evaluates to the bound
action that issues exactly one prefix invalidation to the store, with
the Cache Key equal to the current path's segments and no input suffix;
any other property returns a utils proxy scoped to the path extended by
that property name — so `invalidate` is reachable at every addressable
path. -/
theorem C9_utils_invalidate (path : List String) (property : String)
    (segs : List String) :
    utilsGet path "invalidate" = .invalidateAction [MEvent.invalidate path]
    ∧ (property ≠ "invalidate" → utilsGet path property = .subproxy (path ++ [property]))
    ∧ ((∀ s ∈ segs, s ≠ "invalidate") → utilsTraverse path segs = some (path ++ segs)) := by
  refine ⟨rfl, ?_, utilsTraverse_plain path segs⟩
  intro h
  rw [utilsGet, if_neg h]

/-- Witness for C9 at `["users", ":id"]`. -/
theorem C9_utils_invalidate_witness :
    utilsGet ["users", ":id"] "invalidate" =
      .invalidateAction [MEvent.invalidate ["users", ":id"]]
    ∧ utilsGet ["users"] "posts" = .subproxy ["users", "posts"]
    ∧ utilsTraverse [] ["users", ":id"] = some ["users", ":id"] := by
  exact ⟨(C9_utils_invalidate ["users", ":id"] "posts" []).1,
    (C9_utils_invalidate ["users"] "posts" []).2.1 (by decide),
    (C9_utils_invalidate [] "posts" ["users", ":id"]).2.2 (by decide)⟩

/-- Claim C10 (amended): the error's message equals the JS string
coercion of the parsed payload's `message` property when that property
is present and truthy — in particular equals that property itself when
it is a non-empty string — and otherwise equals the response's
`statusText`; when the payload's message is falsy, the message is
non-empty whenever the `statusText` is; but the message can still be
empty, with a falsy payload message and an empty `statusText`, or with
a truthy message whose string coercion is empty — `{message: []}`
yields an empty message even alongside the non-empty status text
`"OK"`. -/
theorem C10_error_message (status : Nat) (st s : String) (data : JsVal) :
    (jsTruthy (jsGetField data "message") = true →
      (HonoQueryError.mk status st data).message =
        jsValToString (jsGetField data "message"))
    ∧ (jsGetField data "message" = .str s → s ≠ "" →
      (HonoQueryError.mk status st data).message = s)
    ∧ (jsTruthy (jsGetField data "message") = false →
      (HonoQueryError.mk status st data).message = st)
    ∧ (jsTruthy (jsGetField data "message") = false → st ≠ "" →
      (HonoQueryError.mk status st data).message ≠ "")
    ∧ (HonoQueryError.mk 500 "OK"
        (JsVal.objL [("message", JsVal.arr JsList.nil)])).message = "" := by
  refine ⟨?_, ?_, ?_, ?_, by decide⟩
  · intro ht
    simp [HonoQueryError.message, jsOr, ht]
  · intro hm hs
    simp [HonoQueryError.message, jsOr, hm, jsTruthy, hs, jsValToString]
  · intro hf
    simp [HonoQueryError.message, jsOr, hf, jsValToString]
  · intro hf hst
    simp [HonoQueryError.message, jsOr, hf, jsValToString, hst]

/-- Witness for C10: a parsed `{message: "X"}` payload (truthy, string
coercion, and string cases) and a message-less payload with a non-empty
status text (fallback and conditional non-emptiness cases). -/
theorem C10_error_message_witness :
    (HonoQueryError.mk 404 "Not Found" (JsVal.objL [("message", JsVal.str "X")])).message
      = jsValToString (jsGetField (JsVal.objL [("message", JsVal.str "X")]) "message")
    ∧ (HonoQueryError.mk 404 "Not Found"
        (JsVal.objL [("message", JsVal.str "X")])).message = "X"
    ∧ (HonoQueryError.mk 500 "Internal Server Error" (JsVal.objL [])).message =
        "Internal Server Error"
    ∧ (HonoQueryError.mk 500 "Internal Server Error" (JsVal.objL [])).message ≠ "" := by
  have h1 := C10_error_message 404 "Not Found" "X"
    (JsVal.objL [("message", JsVal.str "X")])
  have h2 := C10_error_message 500 "Internal Server Error" "X" (JsVal.objL [])
  exact ⟨h1.1 (by decide), h1.2.1 (by decide) (by decide),
    h2.2.2.1 (by decide), h2.2.2.2.1 (by decide) (by decide)⟩

/-- Counterexample to C10's unconditional non-emptiness: a response with
an empty status text and a payload with no `message` yields an empty
error message; so does a non-empty status text alongside the truthy
payload message `[]`, whose string coercion is empty and wins the `||`. -/
theorem C10_empty_message_counterexample :
    (HonoQueryError.mk 500 "" (JsVal.objL [])).message = ""
    ∧ (HonoQueryError.mk 500 "OK"
        (JsVal.objL [("message", JsVal.arr JsList.nil)])).message = "" := by
  exact ⟨by decide, by decide⟩
